import Mathlib

/-!
Verification of the Royale Protocol core: the vault lifecycle state machine
(contract `RoyaleProtocol`), its status oracle, and the SDK's threshold
secret-recovery pipeline.

Addresses are modelled as naturals (`0` plays the role of `address(0)`),
timestamps and durations as naturals (seconds), and each external contract
function as a Lean function from the caller, the current block timestamp and
the contract storage to an `Except` value: `Except.error msg` models a revert
with the given `require` message (in which case storage is unchanged, as on
chain), and `Except.ok` carries the return value and the updated storage.
-/

/-- Enum for vault status (`enum VaultStatus`). The first variant, `Active`,
is the zero value, which is what an uninitialised storage slot holds. -/
inductive VaultStatus where
  | Active
  | Triggered
  | Claimed
  | Cancelled
deriving DecidableEq, Repr

/-- Vault structure (`struct Vault`). -/
structure Vault where
  owner : Nat
  beneficiary : Nat
  ipfsCID : String
  encryptedTimelockKey : String
  inactivityPeriod : Nat
  lastCheckIn : Nat
  gracePeriod : Nat
  triggerTime : Nat
  status : VaultStatus
  createdAt : Nat
deriving DecidableEq, Repr

/-- The all-zero vault: the value of `vaults[id]` for an id never written.
Uninitialised Solidity storage reads as zero in every field. -/
def zeroVault : Vault :=
  { owner := 0, beneficiary := 0, ipfsCID := "", encryptedTimelockKey := ""
  , inactivityPeriod := 0, lastCheckIn := 0, gracePeriod := 0, triggerTime := 0
  , status := VaultStatus.Active, createdAt := 0 }

/-- Contract storage: `vaults`, `ownerVaults`, `beneficiaryVaults` mappings
and the private `_vaultCounter`. -/
structure LedgerState where
  vaults : Nat → Vault
  ownerVaults : Nat → List Nat
  beneficiaryVaults : Nat → List Nat
  vaultCounter : Nat

/-- Fresh contract storage: every mapping slot is zero. -/
def initialState : LedgerState :=
  { vaults := fun _ => zeroVault
  , ownerVaults := fun _ => []
  , beneficiaryVaults := fun _ => []
  , vaultCounter := 0 }

/-- `modifier vaultExists`: `vaults[vaultId].owner != address(0)`. -/
def vaultExists (s : LedgerState) (vaultId : Nat) : Prop :=
  (s.vaults vaultId).owner ≠ 0

instance (s : LedgerState) (vaultId : Nat) : Decidable (vaultExists s vaultId) := by
  unfold vaultExists; infer_instance

/-- Storage assignment `vaults[vaultId] = v` (all other slots untouched). -/
def setVault (s : LedgerState) (vaultId : Nat) (v : Vault) : LedgerState :=
  { s with vaults := fun i => if i = vaultId then v else s.vaults i }

/-- `function createVault(beneficiary, ipfsCID, encryptedTimelockKey,
inactivityDays, graceDays)`. Returns the new vault id together with the
updated storage. `1 days` is 86400 seconds. -/
def createVault (s : LedgerState) (caller now : Nat) (beneficiary : Nat)
    (ipfsCID encryptedTimelockKey : String) (inactivityDays graceDays : Nat) :
    Except String (Nat × LedgerState) :=
  if beneficiary = 0 then Except.error "Invalid beneficiary"
  else if beneficiary = caller then Except.error "Cannot be your own beneficiary"
  else if ipfsCID = "" then Except.error "IPFS CID required"
  else if encryptedTimelockKey = "" then Except.error "Encrypted key required"
  else if inactivityDays = 0 then Except.error "Inactivity period must be > 0"
  else if graceDays = 0 then Except.error "Grace period must be > 0"
  else
    let vaultId := s.vaultCounter
    let v : Vault :=
      { owner := caller, beneficiary := beneficiary, ipfsCID := ipfsCID
      , encryptedTimelockKey := encryptedTimelockKey
      , inactivityPeriod := inactivityDays * 86400, lastCheckIn := now
      , gracePeriod := graceDays * 86400, triggerTime := 0
      , status := VaultStatus.Active, createdAt := now }
    Except.ok (vaultId,
      { vaults := fun i => if i = vaultId then v else s.vaults i
      , ownerVaults := fun a =>
          if a = caller then s.ownerVaults a ++ [vaultId] else s.ownerVaults a
      , beneficiaryVaults := fun a =>
          if a = beneficiary then s.beneficiaryVaults a ++ [vaultId]
          else s.beneficiaryVaults a
      , vaultCounter := s.vaultCounter + 1 })

/-- `function checkIn(vaultId)`: owner check-in; a `Triggered` vault is reset
back to `Active` with `triggerTime = 0`. -/
def checkIn (s : LedgerState) (caller now vaultId : Nat) :
    Except String LedgerState :=
  if (s.vaults vaultId).owner = 0 then Except.error "Vault does not exist"
  else if (s.vaults vaultId).owner ≠ caller then Except.error "Not vault owner"
  else if ¬ ((s.vaults vaultId).status = VaultStatus.Active ∨
      (s.vaults vaultId).status = VaultStatus.Triggered) then
    Except.error "Vault not active"
  else if (s.vaults vaultId).status = VaultStatus.Triggered then
    Except.ok (setVault s vaultId
      { s.vaults vaultId with lastCheckIn := now, status := VaultStatus.Active, triggerTime := 0 })
  else
    Except.ok (setVault s vaultId { s.vaults vaultId with lastCheckIn := now })

/-- `function triggerRecovery(vaultId)`: anyone may trigger once
`block.timestamp >= lastCheckIn + inactivityPeriod`. -/
def triggerRecovery (s : LedgerState) (caller now vaultId : Nat) :
    Except String LedgerState :=
  if (s.vaults vaultId).owner = 0 then Except.error "Vault does not exist"
  else if ¬ (s.vaults vaultId).status = VaultStatus.Active then
    Except.error "Vault not active"
  else if ¬ ((s.vaults vaultId).lastCheckIn + (s.vaults vaultId).inactivityPeriod ≤ now) then
    Except.error "Inactivity period not met"
  else
    Except.ok (setVault s vaultId
      { s.vaults vaultId with status := VaultStatus.Triggered, triggerTime := now })

/-- `function claimInheritance(vaultId)`: the beneficiary claims after the
grace period; returns `(ipfsCID, encryptedTimelockKey)`. -/
def claimInheritance (s : LedgerState) (caller now vaultId : Nat) :
    Except String ((String × String) × LedgerState) :=
  if (s.vaults vaultId).owner = 0 then Except.error "Vault does not exist"
  else if (s.vaults vaultId).beneficiary ≠ caller then
    Except.error "Not vault beneficiary"
  else if ¬ (s.vaults vaultId).status = VaultStatus.Triggered then
    Except.error "Vault not triggered"
  else if ¬ ((s.vaults vaultId).triggerTime + (s.vaults vaultId).gracePeriod ≤ now) then
    Except.error "Grace period not elapsed"
  else
    Except.ok (((s.vaults vaultId).ipfsCID, (s.vaults vaultId).encryptedTimelockKey),
      setVault s vaultId { s.vaults vaultId with status := VaultStatus.Claimed })

/-- `function cancelVault(vaultId)`: the owner cancels an `Active` or
`Triggered` vault. The second `require` (`"Already claimed"`) is kept even
though the first one already excludes `Claimed`. -/
def cancelVault (s : LedgerState) (caller now vaultId : Nat) :
    Except String LedgerState :=
  if (s.vaults vaultId).owner = 0 then Except.error "Vault does not exist"
  else if (s.vaults vaultId).owner ≠ caller then Except.error "Not vault owner"
  else if ¬ ((s.vaults vaultId).status = VaultStatus.Active ∨
      (s.vaults vaultId).status = VaultStatus.Triggered) then
    Except.error "Cannot cancel vault"
  else if (s.vaults vaultId).status = VaultStatus.Claimed then
    Except.error "Already claimed"
  else
    Except.ok (setVault s vaultId
      { s.vaults vaultId with status := VaultStatus.Cancelled })

/-- Return shape of `getVaultStatus`. -/
structure VaultStatusInfo where
  status : VaultStatus
  timeUntilTrigger : Nat
  canClaim : Bool
  canTrigger : Bool
deriving DecidableEq, Repr

/-- `function getVaultStatus(vaultId)` (view): derived status information. -/
def getVaultStatus (s : LedgerState) (now vaultId : Nat) :
    Except String VaultStatusInfo :=
  if (s.vaults vaultId).owner = 0 then Except.error "Vault does not exist"
  else if (s.vaults vaultId).status = VaultStatus.Active then
    Except.ok
      { status := (s.vaults vaultId).status
      , timeUntilTrigger :=
          if now < (s.vaults vaultId).lastCheckIn + (s.vaults vaultId).inactivityPeriod then
            (s.vaults vaultId).lastCheckIn + (s.vaults vaultId).inactivityPeriod - now
          else 0
      , canClaim := false
      , canTrigger :=
          decide ((s.vaults vaultId).lastCheckIn + (s.vaults vaultId).inactivityPeriod ≤ now) }
  else if (s.vaults vaultId).status = VaultStatus.Triggered then
    Except.ok
      { status := (s.vaults vaultId).status
      , timeUntilTrigger := 0
      , canClaim := decide ((s.vaults vaultId).triggerTime + (s.vaults vaultId).gracePeriod ≤ now)
      , canTrigger := false }
  else
    Except.ok
      { status := (s.vaults vaultId).status
      , timeUntilTrigger := 0
      , canClaim := false
      , canTrigger := false }

/-- `function getVault(vaultId)` (view). -/
def getVault (s : LedgerState) (vaultId : Nat) : Except String Vault :=
  if (s.vaults vaultId).owner = 0 then Except.error "Vault does not exist"
  else Except.ok (s.vaults vaultId)

/-- `function totalVaults()` (view). -/
def totalVaults (s : LedgerState) : Nat := s.vaultCounter

/-- One successful mutating transaction of the ledger: any of the five
external mutating functions, invoked by any caller at any timestamp, that
returns without reverting. -/
inductive LedgerStep : LedgerState → LedgerState → Prop where
  | create {s s' : LedgerState} (caller now beneficiary : Nat)
      (ipfsCID encryptedTimelockKey : String)
      (inactivityDays graceDays vaultId : Nat) :
      createVault s caller now beneficiary ipfsCID encryptedTimelockKey
        inactivityDays graceDays = Except.ok (vaultId, s') → LedgerStep s s'
  | checkin {s s' : LedgerState} (caller now vaultId : Nat) :
      checkIn s caller now vaultId = Except.ok s' → LedgerStep s s'
  | trigger {s s' : LedgerState} (caller now vaultId : Nat) :
      triggerRecovery s caller now vaultId = Except.ok s' → LedgerStep s s'
  | claim {s s' : LedgerState} (caller now vaultId : Nat) (ret : String × String) :
      claimInheritance s caller now vaultId = Except.ok (ret, s') → LedgerStep s s'
  | cancel {s s' : LedgerState} (caller now vaultId : Nat) :
      cancelVault s caller now vaultId = Except.ok s' → LedgerStep s s'

/-- Ledger states reachable from fresh storage by successful transactions. -/
inductive Reachable : LedgerState → Prop where
  | init : Reachable initialState
  | step {s s' : LedgerState} : Reachable s → LedgerStep s s' → Reachable s'

/-- Reflexive-transitive closure of `LedgerStep`: "some future of state `s`". -/
inductive StarStep : LedgerState → LedgerState → Prop where
  | refl (s : LedgerState) : StarStep s s
  | tail {s t u : LedgerState} : StarStep s t → LedgerStep t u → StarStep s u

/-- Result state of a mutating call, or `d` if the call reverted. -/
def exceptState (r : Except String LedgerState) (d : LedgerState) : LedgerState :=
  match r with
  | Except.ok s => s
  | Except.error _ => d

/-- Result state of a value-returning mutating call, or `d` if it reverted. -/
def exceptStateSnd {α : Type} (r : Except String (α × LedgerState))
    (d : LedgerState) : LedgerState :=
  match r with
  | Except.ok p => p.2
  | Except.error _ => d

/-- Concrete run, stage 1: owner `1` creates a vault for beneficiary `2`
at time `1000` with `inactivityDays = graceDays = 1`. The vault gets id `0`. -/
def runState1 : LedgerState :=
  exceptStateSnd (createVault initialState 1 1000 2 "cid" "share" 1 1) initialState

/-- Concrete run, stage 2: a third party `5` triggers vault `0` at time
`87400 = 1000 + 86400`, the exact moment the inactivity period elapses. -/
def runState2 : LedgerState :=
  exceptState (triggerRecovery runState1 5 87400 0) runState1

/-- Concrete run, stage 3a: owner `1` cancels the triggered vault `0` at time
`87400`. Its `triggerTime` stays `87400`. -/
def runState3 : LedgerState :=
  exceptState (cancelVault runState2 1 87400 0) runState2

/-- Concrete run, stage 3b (from stage 2): beneficiary `2` claims vault `0`
at time `173800 = 87400 + 86400`, when the grace period has elapsed. -/
def runState4 : LedgerState :=
  exceptStateSnd (claimInheritance runState2 2 173800 0) runState2

/-- `SecretShares` from the SDK `types`: the three shares of one split. -/
structure SecretShares where
  beneficiaryShare : String
  timelockShare : String
  backupShare : String
deriving DecidableEq, Repr

/-- Modelled from the spec: the external primitives the SDK drives — the
authenticated symmetric cipher (`encryptAES`/`decryptAES` bodies call the
platform AES-256-GCM, out of scope per the spec), the threshold share engine
(`secrets.share`/`secrets.combine` from the secrets.js library), and the
content store (`IPFSClient.upload`/`retrieve`). Each is an opaque function;
the spec's contracts for them (§6) appear as hypotheses of the theorems. -/
structure CryptoEnv where
  encryptAES : String → String → String
  decryptAES : String → String → Except String String
  secretsShare : String → Nat → Nat → List String
  secretsCombine : List String → String
  ipfsUpload : String → String
  ipfsRetrieve : String → Except String String

/-- `splitSecret(secret, threshold, totalShares)` from `encryption.ts`:
calls `secrets.share(secret, totalShares, threshold)` and labels the first
three shares. -/
def splitSecret (env : CryptoEnv) (secret : String)
    (threshold totalShares : Nat) : SecretShares :=
  { beneficiaryShare := (env.secretsShare secret totalShares threshold).getD 0 ""
  , timelockShare := (env.secretsShare secret totalShares threshold).getD 1 ""
  , backupShare := (env.secretsShare secret totalShares threshold).getD 2 "" }

/-- `combineShares(shares)` from `encryption.ts`: requires at least two
shares, then calls `secrets.combine(shares)`. -/
def combineShares (env : CryptoEnv) (shares : List String) : Except String String :=
  if shares.length < 2 then Except.error "At least 2 shares are required"
  else Except.ok (env.secretsCombine shares)

/-- `encryptShareForRecipient(share, publicKey)` from `encryption.ts`: the
placeholder returns the share as-is. -/
def encryptShareForRecipient (share publicKey : String) : String :=
  share

/-- `decryptShareFromRecipient(encryptedShare, privateKey)` from
`encryption.ts`: the placeholder returns its input as-is. -/
def decryptShareFromRecipient (encryptedShare privateKey : String) : String :=
  encryptedShare

/-- The data the SDK's `createVault` derives from the secret before the
on-chain call: the content reference it uploads, the held share it passes to
the contract, and the three shares it returns to the caller. -/
structure CreatedVaultData where
  ipfsCID : String
  encryptedTimelockKey : String
  shares : SecretShares
deriving DecidableEq, Repr

/-- Crypto dataflow of `RoyaleProtocol.createVault` (SDK): encrypt the secret
under a fresh key, upload the ciphertext, split the key 2-of-3, pass the
timelock share through the placeholder recipient encryption. The fresh random
key is taken as the argument `encryptionKey`. -/
def sdkCreateVault (env : CryptoEnv) (secret encryptionKey beneficiary : String) :
    CreatedVaultData :=
  { ipfsCID := env.ipfsUpload (env.encryptAES secret encryptionKey)
  , encryptedTimelockKey :=
      encryptShareForRecipient
        (splitSecret env encryptionKey 2 3).timelockShare beneficiary
  , shares := splitSecret env encryptionKey 2 3 }

/-- Crypto dataflow of `RoyaleProtocol.claimInheritance` (SDK) after the
on-chain claim returned `(ipfsCID, encryptedTimelockKey)`: treat the held
value as the timelock share itself, combine it with the caller's beneficiary
share, fetch the ciphertext, decrypt. -/
def sdkClaimInheritance (env : CryptoEnv)
    (ipfsCID encryptedTimelockKey beneficiaryShare : String) :
    Except String String :=
  match combineShares env [beneficiaryShare, encryptedTimelockKey] with
  | Except.error e => Except.error e
  | Except.ok encryptionKey =>
    match env.ipfsRetrieve ipfsCID with
    | Except.error e => Except.error e
    | Except.ok encryptedData => env.decryptAES encryptedData encryptionKey

/-- Trivial instantiation of the primitive contracts, for evaluating the
round-trip theorem on a concrete secret: the cipher and store are identities
and every share of a "split" is the secret itself. -/
def idCryptoEnv : CryptoEnv :=
  { encryptAES := fun data _ => data
  , decryptAES := fun data _ => Except.ok data
  , secretsShare := fun sec _ _ => [sec, sec, sec]
  , secretsCombine := fun shares => shares.getD 0 ""
  , ipfsUpload := fun data => data
  , ipfsRetrieve := fun data => Except.ok data }

/-- Per-slot storage invariant maintained by the contract: slots at or beyond
the counter are untouched; a created vault has a positive inactivity period;
`triggerTime` is zero in status `Active` and non-zero in `Triggered` and
`Claimed`; any vault that left `Active` was actually created. -/
def VaultInv (counter vaultId : Nat) (v : Vault) : Prop :=
  (counter ≤ vaultId → v = zeroVault) ∧
  (v.owner ≠ 0 → 0 < v.inactivityPeriod) ∧
  (v.status = VaultStatus.Active → v.triggerTime = 0) ∧
  (v.status = VaultStatus.Triggered → v.triggerTime ≠ 0) ∧
  (v.status = VaultStatus.Claimed → v.triggerTime ≠ 0) ∧
  (v.status ≠ VaultStatus.Active → v.owner ≠ 0)

/-- The whole-storage invariant: every slot satisfies `VaultInv`. -/
def LedgerInv (s : LedgerState) : Prop :=
  ∀ vaultId, VaultInv s.vaultCounter vaultId (s.vaults vaultId)

/-- Inversion for a non-reverting `createVault`: all six creation guards held,
the returned id is the old counter, and the new storage is the old one with
the fresh record written, both index lists appended and the counter bumped. -/
theorem createVault_ok (s : LedgerState) (caller now beneficiary : Nat)
    (ipfsCID encryptedTimelockKey : String)
    (inactivityDays graceDays vaultId : Nat) (s' : LedgerState)
    (h : createVault s caller now beneficiary ipfsCID encryptedTimelockKey
      inactivityDays graceDays = Except.ok (vaultId, s')) :
    beneficiary ≠ 0 ∧ beneficiary ≠ caller ∧ ipfsCID ≠ "" ∧
    encryptedTimelockKey ≠ "" ∧ inactivityDays ≠ 0 ∧ graceDays ≠ 0 ∧
    vaultId = s.vaultCounter ∧
    s' = { vaults := fun i => if i = s.vaultCounter then
             { owner := caller, beneficiary := beneficiary, ipfsCID := ipfsCID
             , encryptedTimelockKey := encryptedTimelockKey
             , inactivityPeriod := inactivityDays * 86400, lastCheckIn := now
             , gracePeriod := graceDays * 86400, triggerTime := 0
             , status := VaultStatus.Active, createdAt := now }
           else s.vaults i
         , ownerVaults := fun a =>
             if a = caller then s.ownerVaults a ++ [s.vaultCounter]
             else s.ownerVaults a
         , beneficiaryVaults := fun a =>
             if a = beneficiary then s.beneficiaryVaults a ++ [s.vaultCounter]
             else s.beneficiaryVaults a
         , vaultCounter := s.vaultCounter + 1 } := by
  unfold createVault at h
  split_ifs at h with h1 h2 h3 h4 h5 h6
  simp only [Except.ok.injEq, Prod.mk.injEq] at h
  obtain ⟨hid, hs⟩ := h
  subst hid; subst hs
  exact ⟨h1, h2, h3, h4, h5, h6, rfl, rfl⟩

/-- Inversion for a non-reverting `checkIn`: the vault exists, the caller is
its owner, the status was `Active` or `Triggered`, and the only change is the
vault's own record (`lastCheckIn := now`, and for a `Triggered` vault also
`status := Active`, `triggerTime := 0`). -/
theorem checkIn_ok (s : LedgerState) (caller now vaultId : Nat) (s' : LedgerState)
    (h : checkIn s caller now vaultId = Except.ok s') :
    (s.vaults vaultId).owner ≠ 0 ∧ (s.vaults vaultId).owner = caller ∧
    ((s.vaults vaultId).status = VaultStatus.Active ∨
      (s.vaults vaultId).status = VaultStatus.Triggered) ∧
    s' = setVault s vaultId
      (if (s.vaults vaultId).status = VaultStatus.Triggered then
        { s.vaults vaultId with
            lastCheckIn := now, status := VaultStatus.Active, triggerTime := 0 }
       else { s.vaults vaultId with lastCheckIn := now }) := by
  unfold checkIn at h
  split_ifs at h with h1 h2 h3 h4
  · injection h with h'
    subst h'
    exact ⟨h1, not_not.mp h2, h3, by rw [if_pos h4]⟩
  · injection h with h'
    subst h'
    exact ⟨h1, not_not.mp h2, h3, by rw [if_neg h4]⟩

/-- Inversion for a non-reverting `triggerRecovery`: the vault exists, was
`Active`, the inactivity period had elapsed, and the only change is
`status := Triggered`, `triggerTime := now`. -/
theorem triggerRecovery_ok (s : LedgerState) (caller now vaultId : Nat)
    (s' : LedgerState) (h : triggerRecovery s caller now vaultId = Except.ok s') :
    (s.vaults vaultId).owner ≠ 0 ∧
    (s.vaults vaultId).status = VaultStatus.Active ∧
    (s.vaults vaultId).lastCheckIn + (s.vaults vaultId).inactivityPeriod ≤ now ∧
    s' = setVault s vaultId
      { s.vaults vaultId with status := VaultStatus.Triggered, triggerTime := now } := by
  unfold triggerRecovery at h
  split_ifs at h with h1 h2 h3
  injection h with h'
  subst h'
  exact ⟨h1, h2, h3, rfl⟩

/-- Inversion for a non-reverting `claimInheritance`: the vault exists, the
caller is its beneficiary, the status was `Triggered`, the grace period had
elapsed, the returned pair is the stored `(ipfsCID, encryptedTimelockKey)`,
and the only change is `status := Claimed`. -/
theorem claimInheritance_ok (s : LedgerState) (caller now vaultId : Nat)
    (ret : String × String) (s' : LedgerState)
    (h : claimInheritance s caller now vaultId = Except.ok (ret, s')) :
    (s.vaults vaultId).owner ≠ 0 ∧ (s.vaults vaultId).beneficiary = caller ∧
    (s.vaults vaultId).status = VaultStatus.Triggered ∧
    (s.vaults vaultId).triggerTime + (s.vaults vaultId).gracePeriod ≤ now ∧
    ret = ((s.vaults vaultId).ipfsCID, (s.vaults vaultId).encryptedTimelockKey) ∧
    s' = setVault s vaultId { s.vaults vaultId with status := VaultStatus.Claimed } := by
  unfold claimInheritance at h
  split_ifs at h with h1 h2 h3 h4
  simp only [Except.ok.injEq, Prod.mk.injEq] at h
  obtain ⟨hr, hs⟩ := h
  subst hs
  exact ⟨h1, not_not.mp h2, h3, h4, hr.symm, rfl⟩

/-- Inversion for a non-reverting `cancelVault`: the vault exists, the caller
is its owner, the status was `Active` or `Triggered`, and the only change is
`status := Cancelled`. -/
theorem cancelVault_ok (s : LedgerState) (caller now vaultId : Nat)
    (s' : LedgerState) (h : cancelVault s caller now vaultId = Except.ok s') :
    (s.vaults vaultId).owner ≠ 0 ∧ (s.vaults vaultId).owner = caller ∧
    ((s.vaults vaultId).status = VaultStatus.Active ∨
      (s.vaults vaultId).status = VaultStatus.Triggered) ∧
    s' = setVault s vaultId { s.vaults vaultId with status := VaultStatus.Cancelled } := by
  unfold cancelVault at h
  split_ifs at h with h1 h2 h3 h4
  injection h with h'
  subst h'
  exact ⟨h1, not_not.mp h2, h3, rfl⟩

theorem setVault_vaults (s : LedgerState) (vaultId : Nat) (v : Vault) (i : Nat) :
    (setVault s vaultId v).vaults i = if i = vaultId then v else s.vaults i := rfl

theorem setVault_counter (s : LedgerState) (vaultId : Nat) (v : Vault) :
    (setVault s vaultId v).vaultCounter = s.vaultCounter := rfl

theorem setVault_ownerVaults (s : LedgerState) (vaultId : Nat) (v : Vault) :
    (setVault s vaultId v).ownerVaults = s.ownerVaults := rfl

theorem setVault_beneficiaryVaults (s : LedgerState) (vaultId : Nat) (v : Vault) :
    (setVault s vaultId v).beneficiaryVaults = s.beneficiaryVaults := rfl

/-- `claimInheritance` succeeds when all of its guards hold. -/
theorem claimInheritance_succeeds (s : LedgerState) (caller now vaultId : Nat)
    (h1 : (s.vaults vaultId).owner ≠ 0)
    (h2 : (s.vaults vaultId).beneficiary = caller)
    (h3 : (s.vaults vaultId).status = VaultStatus.Triggered)
    (h4 : (s.vaults vaultId).triggerTime + (s.vaults vaultId).gracePeriod ≤ now) :
    claimInheritance s caller now vaultId =
      Except.ok (((s.vaults vaultId).ipfsCID, (s.vaults vaultId).encryptedTimelockKey),
        setVault s vaultId { s.vaults vaultId with status := VaultStatus.Claimed }) := by
  unfold claimInheritance
  rw [if_neg h1, if_neg (not_not.mpr h2), if_neg (not_not.mpr h3), if_neg (not_not.mpr h4)]

/-- `createVault` succeeds when all of its guards hold. -/
theorem createVault_succeeds (s : LedgerState) (caller now beneficiary : Nat)
    (ipfsCID encryptedTimelockKey : String) (inactivityDays graceDays : Nat)
    (h1 : beneficiary ≠ 0) (h2 : beneficiary ≠ caller) (h3 : ipfsCID ≠ "")
    (h4 : encryptedTimelockKey ≠ "") (h5 : inactivityDays ≠ 0) (h6 : graceDays ≠ 0) :
    createVault s caller now beneficiary ipfsCID encryptedTimelockKey
      inactivityDays graceDays =
      Except.ok (s.vaultCounter,
        { vaults := fun i => if i = s.vaultCounter then
             { owner := caller, beneficiary := beneficiary, ipfsCID := ipfsCID
             , encryptedTimelockKey := encryptedTimelockKey
             , inactivityPeriod := inactivityDays * 86400, lastCheckIn := now
             , gracePeriod := graceDays * 86400, triggerTime := 0
             , status := VaultStatus.Active, createdAt := now }
           else s.vaults i
        , ownerVaults := fun a =>
            if a = caller then s.ownerVaults a ++ [s.vaultCounter] else s.ownerVaults a
        , beneficiaryVaults := fun a =>
            if a = beneficiary then s.beneficiaryVaults a ++ [s.vaultCounter]
            else s.beneficiaryVaults a
        , vaultCounter := s.vaultCounter + 1 }) := by
  unfold createVault
  rw [if_neg h1, if_neg h2, if_neg h3, if_neg h4, if_neg h5, if_neg h6]

/-- `checkIn` succeeds when its guards hold (effect on a `Triggered` vault). -/
theorem checkIn_succeeds_triggered (s : LedgerState) (caller now vaultId : Nat)
    (h1 : (s.vaults vaultId).owner ≠ 0) (h2 : (s.vaults vaultId).owner = caller)
    (h3 : (s.vaults vaultId).status = VaultStatus.Triggered) :
    checkIn s caller now vaultId =
      Except.ok (setVault s vaultId
        { s.vaults vaultId with
            lastCheckIn := now, status := VaultStatus.Active, triggerTime := 0 }) := by
  unfold checkIn
  rw [if_neg h1, if_neg (not_not.mpr h2), if_neg (not_not.mpr (Or.inr h3)), if_pos h3]

/-- `checkIn` succeeds when its guards hold (effect on an `Active` vault). -/
theorem checkIn_succeeds_active (s : LedgerState) (caller now vaultId : Nat)
    (h1 : (s.vaults vaultId).owner ≠ 0) (h2 : (s.vaults vaultId).owner = caller)
    (h3 : (s.vaults vaultId).status = VaultStatus.Active) :
    checkIn s caller now vaultId =
      Except.ok (setVault s vaultId { s.vaults vaultId with lastCheckIn := now }) := by
  unfold checkIn
  rw [if_neg h1, if_neg (not_not.mpr h2), if_neg (not_not.mpr (Or.inl h3)),
    if_neg (by rw [h3]; exact fun hT => VaultStatus.noConfusion hT)]

/-- `triggerRecovery` succeeds when its guards hold. -/
theorem triggerRecovery_succeeds (s : LedgerState) (caller now vaultId : Nat)
    (h1 : (s.vaults vaultId).owner ≠ 0)
    (h2 : (s.vaults vaultId).status = VaultStatus.Active)
    (h3 : (s.vaults vaultId).lastCheckIn + (s.vaults vaultId).inactivityPeriod ≤ now) :
    triggerRecovery s caller now vaultId =
      Except.ok (setVault s vaultId
        { s.vaults vaultId with status := VaultStatus.Triggered, triggerTime := now }) := by
  unfold triggerRecovery
  rw [if_neg h1, if_neg (not_not.mpr h2), if_neg (not_not.mpr h3)]

/-- `cancelVault` succeeds when its guards hold. -/
theorem cancelVault_succeeds (s : LedgerState) (caller now vaultId : Nat)
    (h1 : (s.vaults vaultId).owner ≠ 0) (h2 : (s.vaults vaultId).owner = caller)
    (h3 : (s.vaults vaultId).status = VaultStatus.Active ∨
      (s.vaults vaultId).status = VaultStatus.Triggered) :
    cancelVault s caller now vaultId =
      Except.ok (setVault s vaultId
        { s.vaults vaultId with status := VaultStatus.Cancelled }) := by
  unfold cancelVault
  rw [if_neg h1, if_neg (not_not.mpr h2), if_neg (not_not.mpr h3),
    if_neg (by rcases h3 with h | h <;> rw [h] <;> exact fun hC => VaultStatus.noConfusion hC)]

theorem initialState_inv : LedgerInv initialState := by
  intro vaultId
  refine ⟨fun _ => rfl, fun h0 => absurd rfl h0, fun _ => rfl,
    fun hT => VaultStatus.noConfusion hT, fun hC => VaultStatus.noConfusion hC,
    fun hA => absurd rfl hA⟩

theorem inv_lt_counter {s : LedgerState} (hs : LedgerInv s) {vaultId : Nat}
    (h : (s.vaults vaultId).owner ≠ 0) : vaultId < s.vaultCounter := by
  by_contra hge
  exact h (by rw [(hs vaultId).1 (Nat.le_of_not_lt hge)]; rfl)

/-- Every successful mutating transaction preserves the storage invariant. -/
theorem step_preserves_inv {s s' : LedgerState} (hs : LedgerInv s)
    (st : LedgerStep s s') : LedgerInv s' := by
  cases st with
  | create caller now beneficiary ipfsCID encryptedTimelockKey
      inactivityDays graceDays vaultId h =>
    obtain ⟨_, _, _, _, h5, _, _, hstate⟩ :=
      createVault_ok _ _ _ _ _ _ _ _ _ _ h
    subst hstate
    intro j
    by_cases hj : j = s.vaultCounter
    · subst hj
      dsimp only
      rw [if_pos rfl]
      exact ⟨fun hc => absurd hc (by omega),
        fun _ => Nat.mul_pos (Nat.pos_of_ne_zero h5) (by norm_num), fun _ => rfl,
        fun hT => VaultStatus.noConfusion hT, fun hC => VaultStatus.noConfusion hC,
        fun hA => absurd rfl hA⟩
    · dsimp only
      rw [if_neg hj]
      obtain ⟨i1, i2, i3, i4, i5, i6⟩ := hs j
      exact ⟨fun hc => i1 (by omega), i2, i3, i4, i5, i6⟩
  | checkin caller now vaultId h =>
    obtain ⟨h1, h2, h3, hstate⟩ := checkIn_ok _ _ _ _ _ h
    subst hstate
    intro j
    obtain ⟨i1, i2, i3, i4, i5, i6⟩ := hs j
    rw [setVault_counter]
    by_cases hj : j = vaultId
    · subst hj
      have hlt : ¬ s.vaultCounter ≤ j := Nat.not_le_of_lt (inv_lt_counter hs h1)
      obtain ⟨o1, o2, o3, o4, o5, o6⟩ := hs j
      by_cases hT : (s.vaults j).status = VaultStatus.Triggered
      · rw [setVault_vaults, if_pos rfl, if_pos hT]
        exact ⟨fun hc => absurd hc hlt, fun _ => o2 h1, fun _ => rfl,
          fun hx => VaultStatus.noConfusion hx, fun hx => VaultStatus.noConfusion hx,
          fun hA => absurd rfl hA⟩
      · have hA : (s.vaults j).status = VaultStatus.Active := h3.resolve_right hT
        rw [setVault_vaults, if_pos rfl, if_neg hT]
        refine ⟨fun hc => absurd hc hlt, fun _ => o2 h1, fun _ => o3 hA, ?_, ?_, ?_⟩
        · intro hx; exact absurd (hA ▸ hx) (fun q => VaultStatus.noConfusion q)
        · intro hx; exact absurd (hA ▸ hx) (fun q => VaultStatus.noConfusion q)
        · intro hx; exact absurd hA (by simpa using hx)
    · rw [setVault_vaults, if_neg hj]
      exact ⟨i1, i2, i3, i4, i5, i6⟩
  | trigger caller now vaultId h =>
    obtain ⟨h1, h2, h3, hstate⟩ := triggerRecovery_ok _ _ _ _ _ h
    subst hstate
    intro j
    obtain ⟨i1, i2, i3, i4, i5, i6⟩ := hs j
    rw [setVault_counter]
    by_cases hj : j = vaultId
    · subst hj
      have hlt : ¬ s.vaultCounter ≤ j := Nat.not_le_of_lt (inv_lt_counter hs h1)
      have hpos : 0 < (s.vaults j).inactivityPeriod := i2 h1
      rw [setVault_vaults, if_pos rfl]
      exact ⟨fun hc => absurd hc hlt, fun _ => hpos,
        fun hx => VaultStatus.noConfusion hx, fun _ => show now ≠ 0 by omega,
        fun hx => VaultStatus.noConfusion hx, fun _ => h1⟩
    · rw [setVault_vaults, if_neg hj]
      exact ⟨i1, i2, i3, i4, i5, i6⟩
  | claim caller now vaultId ret h =>
    obtain ⟨h1, h2, h3, h4, hret, hstate⟩ := claimInheritance_ok _ _ _ _ _ _ h
    subst hstate
    intro j
    obtain ⟨i1, i2, i3, i4, i5, i6⟩ := hs j
    rw [setVault_counter]
    by_cases hj : j = vaultId
    · subst hj
      have hlt : ¬ s.vaultCounter ≤ j := Nat.not_le_of_lt (inv_lt_counter hs h1)
      rw [setVault_vaults, if_pos rfl]
      exact ⟨fun hc => absurd hc hlt, fun _ => i2 h1,
        fun hx => VaultStatus.noConfusion hx, fun hx => VaultStatus.noConfusion hx,
        fun _ => i4 h3, fun _ => h1⟩
    · rw [setVault_vaults, if_neg hj]
      exact ⟨i1, i2, i3, i4, i5, i6⟩
  | cancel caller now vaultId h =>
    obtain ⟨h1, h2, h3, hstate⟩ := cancelVault_ok _ _ _ _ _ h
    subst hstate
    intro j
    obtain ⟨i1, i2, i3, i4, i5, i6⟩ := hs j
    rw [setVault_counter]
    by_cases hj : j = vaultId
    · subst hj
      have hlt : ¬ s.vaultCounter ≤ j := Nat.not_le_of_lt (inv_lt_counter hs h1)
      rw [setVault_vaults, if_pos rfl]
      exact ⟨fun hc => absurd hc hlt, fun _ => i2 h1,
        fun hx => VaultStatus.noConfusion hx, fun hx => VaultStatus.noConfusion hx,
        fun hx => VaultStatus.noConfusion hx, fun _ => h1⟩
    · rw [setVault_vaults, if_neg hj]
      exact ⟨i1, i2, i3, i4, i5, i6⟩

/-- Every reachable ledger state satisfies the storage invariant. -/
theorem reachable_inv {s : LedgerState} (h : Reachable s) : LedgerInv s := by
  induction h with
  | init => exact initialState_inv
  | step _ hst ih => exact step_preserves_inv ih hst

/-- A successful transaction never changes the immutable fields (`owner`,
`beneficiary`, `ipfsCID`, `encryptedTimelockKey`, the two durations,
`createdAt`) of an already-created vault. -/
theorem step_preserves_created {s t : LedgerState} (hinv : LedgerInv s)
    (st : LedgerStep s t) (j : Nat) (hj : (s.vaults j).owner ≠ 0) :
    (t.vaults j).owner = (s.vaults j).owner ∧
    (t.vaults j).beneficiary = (s.vaults j).beneficiary ∧
    (t.vaults j).ipfsCID = (s.vaults j).ipfsCID ∧
    (t.vaults j).encryptedTimelockKey = (s.vaults j).encryptedTimelockKey ∧
    (t.vaults j).inactivityPeriod = (s.vaults j).inactivityPeriod ∧
    (t.vaults j).gracePeriod = (s.vaults j).gracePeriod ∧
    (t.vaults j).createdAt = (s.vaults j).createdAt := by
  have hlt : j ≠ s.vaultCounter := Nat.ne_of_lt (inv_lt_counter hinv hj)
  cases st with
  | create caller now beneficiary ipfsCID encryptedTimelockKey
      inactivityDays graceDays vaultId h =>
    obtain ⟨_, _, _, _, _, _, _, hstate⟩ := createVault_ok _ _ _ _ _ _ _ _ _ _ h
    subst hstate
    dsimp only
    rw [if_neg hlt]
    exact ⟨rfl, rfl, rfl, rfl, rfl, rfl, rfl⟩
  | checkin caller now vaultId h =>
    obtain ⟨_, _, _, hstate⟩ := checkIn_ok _ _ _ _ _ h
    subst hstate
    rw [setVault_vaults]
    by_cases hv : j = vaultId
    · subst hv
      rw [if_pos rfl]
      by_cases hT : (s.vaults j).status = VaultStatus.Triggered
      · rw [if_pos hT]; exact ⟨rfl, rfl, rfl, rfl, rfl, rfl, rfl⟩
      · rw [if_neg hT]; exact ⟨rfl, rfl, rfl, rfl, rfl, rfl, rfl⟩
    · rw [if_neg hv]; exact ⟨rfl, rfl, rfl, rfl, rfl, rfl, rfl⟩
  | trigger caller now vaultId h =>
    obtain ⟨_, _, _, hstate⟩ := triggerRecovery_ok _ _ _ _ _ h
    subst hstate
    rw [setVault_vaults]
    by_cases hv : j = vaultId
    · subst hv; rw [if_pos rfl]; exact ⟨rfl, rfl, rfl, rfl, rfl, rfl, rfl⟩
    · rw [if_neg hv]; exact ⟨rfl, rfl, rfl, rfl, rfl, rfl, rfl⟩
  | claim caller now vaultId ret h =>
    obtain ⟨_, _, _, _, _, hstate⟩ := claimInheritance_ok _ _ _ _ _ _ h
    subst hstate
    rw [setVault_vaults]
    by_cases hv : j = vaultId
    · subst hv; rw [if_pos rfl]; exact ⟨rfl, rfl, rfl, rfl, rfl, rfl, rfl⟩
    · rw [if_neg hv]; exact ⟨rfl, rfl, rfl, rfl, rfl, rfl, rfl⟩
  | cancel caller now vaultId h =>
    obtain ⟨_, _, _, hstate⟩ := cancelVault_ok _ _ _ _ _ h
    subst hstate
    rw [setVault_vaults]
    by_cases hv : j = vaultId
    · subst hv; rw [if_pos rfl]; exact ⟨rfl, rfl, rfl, rfl, rfl, rfl, rfl⟩
    · rw [if_neg hv]; exact ⟨rfl, rfl, rfl, rfl, rfl, rfl, rfl⟩

/-- A successful transaction leaves the full record of a terminal
(`Claimed` or `Cancelled`) vault untouched. -/
theorem step_preserves_terminal {s t : LedgerState} (hinv : LedgerInv s)
    (st : LedgerStep s t) (vaultId : Nat)
    (hterm : (s.vaults vaultId).status = VaultStatus.Claimed ∨
      (s.vaults vaultId).status = VaultStatus.Cancelled) :
    t.vaults vaultId = s.vaults vaultId := by
  have hown : (s.vaults vaultId).owner ≠ 0 := by
    refine (hinv vaultId).2.2.2.2.2 ?_
    rcases hterm with h | h <;> rw [h] <;> exact fun q => VaultStatus.noConfusion q
  have hnT : ¬ ((s.vaults vaultId).status = VaultStatus.Active ∨
      (s.vaults vaultId).status = VaultStatus.Triggered) := by
    rcases hterm with h | h <;> rw [h] <;>
      exact fun q => q.elim (fun a => VaultStatus.noConfusion a)
        (fun a => VaultStatus.noConfusion a)
  have hlt : vaultId ≠ s.vaultCounter := Nat.ne_of_lt (inv_lt_counter hinv hown)
  cases st with
  | create caller now beneficiary ipfsCID encryptedTimelockKey
      inactivityDays graceDays vid h =>
    obtain ⟨_, _, _, _, _, _, _, hstate⟩ := createVault_ok _ _ _ _ _ _ _ _ _ _ h
    subst hstate
    dsimp only
    rw [if_neg hlt]
  | checkin caller now vid h =>
    obtain ⟨_, _, h3, hstate⟩ := checkIn_ok _ _ _ _ _ h
    subst hstate
    rw [setVault_vaults]
    by_cases hv : vaultId = vid
    · exact absurd (hv ▸ h3) hnT
    · rw [if_neg hv]
  | trigger caller now vid h =>
    obtain ⟨_, h2, _, hstate⟩ := triggerRecovery_ok _ _ _ _ _ h
    subst hstate
    rw [setVault_vaults]
    by_cases hv : vaultId = vid
    · exact absurd (Or.inl (hv ▸ h2)) hnT
    · rw [if_neg hv]
  | claim caller now vid ret h =>
    obtain ⟨_, _, h3, _, _, hstate⟩ := claimInheritance_ok _ _ _ _ _ _ h
    subst hstate
    rw [setVault_vaults]
    by_cases hv : vaultId = vid
    · exact absurd (Or.inr (hv ▸ h3)) hnT
    · rw [if_neg hv]
  | cancel caller now vid h =>
    obtain ⟨_, _, h3, hstate⟩ := cancelVault_ok _ _ _ _ _ h
    subst hstate
    rw [setVault_vaults]
    by_cases hv : vaultId = vid
    · exact absurd (hv ▸ h3) hnT
    · rw [if_neg hv]

/-- The storage invariant also holds in every future of an invariant state. -/
theorem starStep_preserves_inv {s t : LedgerState} (hinv : LedgerInv s)
    (h : StarStep s t) : LedgerInv t := by
  induction h with
  | refl => exact hinv
  | tail _ hst ih => exact step_preserves_inv ih hst

/-- The full record of a terminal vault is untouched in every future state. -/
theorem starStep_preserves_terminal {s t : LedgerState} (hinv : LedgerInv s)
    (h : StarStep s t) (vaultId : Nat)
    (hterm : (s.vaults vaultId).status = VaultStatus.Claimed ∨
      (s.vaults vaultId).status = VaultStatus.Cancelled) :
    t.vaults vaultId = s.vaults vaultId := by
  induction h with
  | refl => rfl
  | tail hprev hst ih =>
    rw [← ih]
    exact step_preserves_terminal (starStep_preserves_inv hinv hprev) hst vaultId
      (by rw [ih]; exact hterm)

theorem reachable_runState1 : Reachable runState1 :=
  Reachable.step Reachable.init (LedgerStep.create 1 1000 2 "cid" "share" 1 1 0 rfl)

theorem reachable_runState2 : Reachable runState2 :=
  Reachable.step reachable_runState1 (LedgerStep.trigger 5 87400 0 rfl)

theorem reachable_runState3 : Reachable runState3 :=
  Reachable.step reachable_runState2 (LedgerStep.cancel 1 87400 0 rfl)

theorem reachable_runState4 : Reachable runState4 :=
  Reachable.step reachable_runState2 (LedgerStep.claim 2 173800 0 ("cid", "share") rfl)

/-- C1, counterexample: the spec's invariant "`triggerTime` is non-zero iff
`status == Triggered`" fails on the code. In the reachable state obtained by
create (owner 1, beneficiary 2, at time 1000, one-day periods) → trigger (at
time 87400) → cancel, vault 0 has status `Cancelled` and a non-zero
`triggerTime` of 87400, because `cancelVault` does not clear `triggerTime`. -/
theorem c1_counterexample :
    Reachable runState3 ∧ (runState3.vaults 0).status = VaultStatus.Cancelled ∧
    (runState3.vaults 0).triggerTime = 87400 :=
  ⟨reachable_runState3, rfl, rfl⟩

/-- C1, amended: in every reachable ledger state, a vault with status
`Active` has `triggerTime = 0`, and a vault with status `Triggered` or
`Claimed` has a non-zero `triggerTime`; a `Cancelled` (or `Claimed`) vault
retains whatever `triggerTime` it had, so the "iff Triggered" direction only
survives as these three implications. -/
theorem c1_triggerTime_status (s : LedgerState) (h : Reachable s) (vaultId : Nat) :
    ((s.vaults vaultId).status = VaultStatus.Active →
      (s.vaults vaultId).triggerTime = 0) ∧
    ((s.vaults vaultId).status = VaultStatus.Triggered →
      (s.vaults vaultId).triggerTime ≠ 0) ∧
    ((s.vaults vaultId).status = VaultStatus.Claimed →
      (s.vaults vaultId).triggerTime ≠ 0) := by
  obtain ⟨_, _, i3, i4, i5, _⟩ := reachable_inv h vaultId
  exact ⟨i3, i4, i5⟩

/-- Witness for C1's amended theorem at the reachable triggered state. -/
theorem c1_triggerTime_status_witness :
    Reachable runState2 ∧
    (((runState2.vaults 0).status = VaultStatus.Active →
       (runState2.vaults 0).triggerTime = 0) ∧
     ((runState2.vaults 0).status = VaultStatus.Triggered →
       (runState2.vaults 0).triggerTime ≠ 0) ∧
     ((runState2.vaults 0).status = VaultStatus.Claimed →
       (runState2.vaults 0).triggerTime ≠ 0)) :=
  ⟨reachable_runState2, c1_triggerTime_status runState2 reachable_runState2 0⟩

/-- C7: for every existing vault with status `Triggered`, a check-in by the
owner succeeds at every timestamp `now` — there is no time guard, however
long the vault has been triggered and even if the grace period has elapsed —
and its effect is `lastCheckIn = now`, `triggerTime = 0` (unset) and
`status = Active`, with every other vault record unchanged. -/
theorem c7_checkIn_triggered (s : LedgerState) (caller now vaultId : Nat)
    (hex : (s.vaults vaultId).owner ≠ 0)
    (hown : (s.vaults vaultId).owner = caller)
    (hT : (s.vaults vaultId).status = VaultStatus.Triggered) :
    ∃ s', checkIn s caller now vaultId = Except.ok s' ∧
      s'.vaults vaultId = { s.vaults vaultId with
        lastCheckIn := now, status := VaultStatus.Active, triggerTime := 0 } ∧
      ∀ j, j ≠ vaultId → s'.vaults j = s.vaults j := by
  refine ⟨_, checkIn_succeeds_triggered s caller now vaultId hex hown hT, ?_, ?_⟩
  · rw [setVault_vaults, if_pos rfl]
  · intro j hj
    rw [setVault_vaults, if_neg hj]

/-- Witness for C7: owner 1 checks the triggered vault 0 back in at a late
timestamp (far beyond the grace period) and it still resets. -/
theorem c7_checkIn_triggered_witness :
    ((runState2.vaults 0).owner ≠ 0 ∧ (runState2.vaults 0).owner = 1 ∧
     (runState2.vaults 0).status = VaultStatus.Triggered) ∧
    (∃ s', checkIn runState2 1 999999999 0 = Except.ok s' ∧
      s'.vaults 0 = { runState2.vaults 0 with
        lastCheckIn := 999999999, status := VaultStatus.Active, triggerTime := 0 } ∧
      ∀ j, j ≠ 0 → s'.vaults j = runState2.vaults j) :=
  ⟨⟨by decide, rfl, rfl⟩,
   c7_checkIn_triggered runState2 1 999999999 0 (by decide) rfl rfl⟩

/-- C10: a successful `cancelVault` or `claimInheritance` changes only the
`status` field of the target vault — all nine other fields keep their prior
values (in particular a non-zero `triggerTime` persists into the `Cancelled`
or `Claimed` record) — and every other vault record, both per-identity index
lists, and the vault counter are unchanged. -/
theorem c10_claim_cancel_frame (s : LedgerState) (caller now vaultId : Nat) :
    (∀ s', cancelVault s caller now vaultId = Except.ok s' →
      s'.vaults vaultId = { s.vaults vaultId with status := VaultStatus.Cancelled } ∧
      (∀ j, j ≠ vaultId → s'.vaults j = s.vaults j) ∧
      s'.ownerVaults = s.ownerVaults ∧
      s'.beneficiaryVaults = s.beneficiaryVaults ∧
      s'.vaultCounter = s.vaultCounter) ∧
    (∀ ret s', claimInheritance s caller now vaultId = Except.ok (ret, s') →
      s'.vaults vaultId = { s.vaults vaultId with status := VaultStatus.Claimed } ∧
      (∀ j, j ≠ vaultId → s'.vaults j = s.vaults j) ∧
      s'.ownerVaults = s.ownerVaults ∧
      s'.beneficiaryVaults = s.beneficiaryVaults ∧
      s'.vaultCounter = s.vaultCounter) := by
  constructor
  · intro s' h
    obtain ⟨_, _, _, hstate⟩ := cancelVault_ok _ _ _ _ _ h
    subst hstate
    exact ⟨by rw [setVault_vaults, if_pos rfl],
      fun j hj => by rw [setVault_vaults, if_neg hj],
      setVault_ownerVaults _ _ _, setVault_beneficiaryVaults _ _ _,
      setVault_counter _ _ _⟩
  · intro ret s' h
    obtain ⟨_, _, _, _, _, hstate⟩ := claimInheritance_ok _ _ _ _ _ _ h
    subst hstate
    exact ⟨by rw [setVault_vaults, if_pos rfl],
      fun j hj => by rw [setVault_vaults, if_neg hj],
      setVault_ownerVaults _ _ _, setVault_beneficiaryVaults _ _ _,
      setVault_counter _ _ _⟩

/-- Witness for C10: the concrete cancel (at stage 3a) and claim (at stage
3b) of the run both only flip the status, keeping `triggerTime = 87400`. -/
theorem c10_claim_cancel_frame_witness :
    runState3.vaults 0 = { runState2.vaults 0 with status := VaultStatus.Cancelled } ∧
    runState4.vaults 0 = { runState2.vaults 0 with status := VaultStatus.Claimed } ∧
    runState3.vaultCounter = runState2.vaultCounter ∧
    runState4.ownerVaults = runState2.ownerVaults :=
  ⟨((c10_claim_cancel_frame runState2 1 87400 0).1 runState3 rfl).1,
   ((c10_claim_cancel_frame runState2 2 173800 0).2 ("cid", "share") runState4 rfl).1,
   ((c10_claim_cancel_frame runState2 1 87400 0).1 runState3 rfl).2.2.2.2,
   ((c10_claim_cancel_frame runState2 2 173800 0).2 ("cid", "share") runState4 rfl).2.2.1⟩

/-- C2: for every existing vault, `claimInheritance` succeeds exactly when
the caller is the beneficiary, the status is `Triggered` and
`now ≥ triggerTime + gracePeriod`; on success it returns the stored
`(ipfsCID, encryptedTimelockKey)` pair — which no transaction since creation
can have altered — and sets the status to `Claimed`; each failed guard
produces its own distinct revert message. -/
theorem c2_claimInheritance_spec (s : LedgerState) (caller now vaultId : Nat)
    (hex : (s.vaults vaultId).owner ≠ 0) :
    ((∃ ret s', claimInheritance s caller now vaultId = Except.ok (ret, s')) ↔
      ((s.vaults vaultId).beneficiary = caller ∧
       (s.vaults vaultId).status = VaultStatus.Triggered ∧
       (s.vaults vaultId).triggerTime + (s.vaults vaultId).gracePeriod ≤ now)) ∧
    (∀ ret s', claimInheritance s caller now vaultId = Except.ok (ret, s') →
      ret = ((s.vaults vaultId).ipfsCID, (s.vaults vaultId).encryptedTimelockKey) ∧
      (s'.vaults vaultId).status = VaultStatus.Claimed) ∧
    ((s.vaults vaultId).beneficiary ≠ caller →
      claimInheritance s caller now vaultId = Except.error "Not vault beneficiary") ∧
    ((s.vaults vaultId).beneficiary = caller →
      (s.vaults vaultId).status ≠ VaultStatus.Triggered →
      claimInheritance s caller now vaultId = Except.error "Vault not triggered") ∧
    ((s.vaults vaultId).beneficiary = caller →
      (s.vaults vaultId).status = VaultStatus.Triggered →
      now < (s.vaults vaultId).triggerTime + (s.vaults vaultId).gracePeriod →
      claimInheritance s caller now vaultId = Except.error "Grace period not elapsed") ∧
    (∀ s₁ s₂ : LedgerState, Reachable s₁ → LedgerStep s₁ s₂ → ∀ j,
      (s₁.vaults j).owner ≠ 0 →
      (s₂.vaults j).ipfsCID = (s₁.vaults j).ipfsCID ∧
      (s₂.vaults j).encryptedTimelockKey = (s₁.vaults j).encryptedTimelockKey) := by
  refine ⟨⟨?_, ?_⟩, ?_, ?_, ?_, ?_, ?_⟩
  · rintro ⟨ret, s', h⟩
    obtain ⟨_, h2, h3, h4, _, _⟩ := claimInheritance_ok _ _ _ _ _ _ h
    exact ⟨h2, h3, h4⟩
  · rintro ⟨h2, h3, h4⟩
    exact ⟨_, _, claimInheritance_succeeds s caller now vaultId hex h2 h3 h4⟩
  · intro ret s' h
    obtain ⟨_, _, _, _, hret, hstate⟩ := claimInheritance_ok _ _ _ _ _ _ h
    subst hstate
    exact ⟨hret, by rw [setVault_vaults, if_pos rfl]⟩
  · intro hne
    unfold claimInheritance
    rw [if_neg hex, if_pos hne]
  · intro hb hnT
    unfold claimInheritance
    rw [if_neg hex, if_neg (not_not.mpr hb), if_pos hnT]
  · intro hb hT hlt
    unfold claimInheritance
    rw [if_neg hex, if_neg (not_not.mpr hb), if_neg (not_not.mpr hT),
      if_pos (not_le.mpr hlt)]
  · intro s₁ s₂ hr hst j hj
    obtain ⟨_, _, hc, hk, _, _, _⟩ :=
      step_preserves_created (reachable_inv hr) hst j hj
    exact ⟨hc, hk⟩

/-- Witness for C2: in the triggered run state, the beneficiary's claim at
time 173800 succeeds. -/
theorem c2_claimInheritance_spec_witness :
    (runState2.vaults 0).owner ≠ 0 ∧
    (∃ ret s', claimInheritance runState2 2 173800 0 = Except.ok (ret, s')) :=
  ⟨by decide,
   (c2_claimInheritance_spec runState2 2 173800 0 (by decide)).1.mpr
     ⟨rfl, rfl, by decide⟩⟩

/-- C3: for every existing vault and every current time, `getVaultStatus`
returns a result whose `timeUntilTrigger` is `lastCheckIn + inactivityPeriod
- now` when the status is `Active` and `now` is before that threshold and 0
otherwise, whose `canTrigger` holds iff the status is `Active` and the
inactivity threshold has passed, and whose `canClaim` holds iff the status is
`Triggered` and the grace threshold has passed (false in every other status
no matter the elapsed time). -/
theorem c3_getVaultStatus_spec (s : LedgerState) (now vaultId : Nat)
    (hex : (s.vaults vaultId).owner ≠ 0) :
    ∃ info, getVaultStatus s now vaultId = Except.ok info ∧
      info.status = (s.vaults vaultId).status ∧
      info.timeUntilTrigger =
        (if (s.vaults vaultId).status = VaultStatus.Active ∧
            now < (s.vaults vaultId).lastCheckIn + (s.vaults vaultId).inactivityPeriod
         then (s.vaults vaultId).lastCheckIn + (s.vaults vaultId).inactivityPeriod - now
         else 0) ∧
      (info.canTrigger = true ↔
        ((s.vaults vaultId).status = VaultStatus.Active ∧
         (s.vaults vaultId).lastCheckIn + (s.vaults vaultId).inactivityPeriod ≤ now)) ∧
      (info.canClaim = true ↔
        ((s.vaults vaultId).status = VaultStatus.Triggered ∧
         (s.vaults vaultId).triggerTime + (s.vaults vaultId).gracePeriod ≤ now)) := by
  unfold getVaultStatus
  rw [if_neg hex]
  by_cases hA : (s.vaults vaultId).status = VaultStatus.Active
  · rw [if_pos hA]
    refine ⟨_, rfl, rfl, ?_, ?_, ?_⟩
    · by_cases hlt : now < (s.vaults vaultId).lastCheckIn + (s.vaults vaultId).inactivityPeriod
      · rw [if_pos hlt, if_pos ⟨hA, hlt⟩]
      · rw [if_neg hlt, if_neg (fun hc => hlt hc.2)]
    · simp [hA]
    · simp [hA]
  · rw [if_neg hA]
    by_cases hT : (s.vaults vaultId).status = VaultStatus.Triggered
    · rw [if_pos hT]
      refine ⟨_, rfl, rfl, ?_, ?_, ?_⟩
      · rw [if_neg (fun hc => hA hc.1)]
      · simp [hT]
      · simp [hT]
    · rw [if_neg hT]
      refine ⟨_, rfl, rfl, ?_, ?_, ?_⟩
      · rw [if_neg (fun hc => hA hc.1)]
      · simp [hA]
      · simp [hT]

/-- Witness for C3 at the freshly created vault, before the threshold:
time until trigger is 87400 - 5000. -/
theorem c3_getVaultStatus_spec_witness :
    (runState1.vaults 0).owner ≠ 0 ∧
    (∃ info, getVaultStatus runState1 5000 0 = Except.ok info ∧
      info.status = (runState1.vaults 0).status ∧
      info.timeUntilTrigger =
        (if (runState1.vaults 0).status = VaultStatus.Active ∧
            5000 < (runState1.vaults 0).lastCheckIn + (runState1.vaults 0).inactivityPeriod
         then (runState1.vaults 0).lastCheckIn + (runState1.vaults 0).inactivityPeriod - 5000
         else 0) ∧
      (info.canTrigger = true ↔
        ((runState1.vaults 0).status = VaultStatus.Active ∧
         (runState1.vaults 0).lastCheckIn + (runState1.vaults 0).inactivityPeriod ≤ 5000)) ∧
      (info.canClaim = true ↔
        ((runState1.vaults 0).status = VaultStatus.Triggered ∧
         (runState1.vaults 0).triggerTime + (runState1.vaults 0).gracePeriod ≤ 5000))) :=
  ⟨by decide, c3_getVaultStatus_spec runState1 5000 0 (by decide)⟩

/-- C5: terminal states are absorbing. For every reachable state and every
vault whose status is `Claimed` or `Cancelled`: no mutating operation on it
ever succeeds again, for any caller and time; `triggerRecovery` always
reverts with its state error, and `checkIn`, `claimInheritance` and
`cancelVault` revert with their state errors whenever their role guard is
passed; and the vault's full record is identical in every future state. -/
theorem c5_terminal_absorbing (s : LedgerState) (hr : Reachable s) (vaultId : Nat)
    (hterm : (s.vaults vaultId).status = VaultStatus.Claimed ∨
      (s.vaults vaultId).status = VaultStatus.Cancelled) :
    (∀ caller now s', checkIn s caller now vaultId ≠ Except.ok s') ∧
    (∀ caller now s', triggerRecovery s caller now vaultId ≠ Except.ok s') ∧
    (∀ caller now ret s', claimInheritance s caller now vaultId ≠ Except.ok (ret, s')) ∧
    (∀ caller now s', cancelVault s caller now vaultId ≠ Except.ok s') ∧
    (∀ caller now, (s.vaults vaultId).owner = caller →
      checkIn s caller now vaultId = Except.error "Vault not active") ∧
    (∀ caller now, triggerRecovery s caller now vaultId
      = Except.error "Vault not active") ∧
    (∀ caller now, (s.vaults vaultId).beneficiary = caller →
      claimInheritance s caller now vaultId = Except.error "Vault not triggered") ∧
    (∀ caller now, (s.vaults vaultId).owner = caller →
      cancelVault s caller now vaultId = Except.error "Cannot cancel vault") ∧
    (∀ s', StarStep s s' → s'.vaults vaultId = s.vaults vaultId) := by
  have hinv := reachable_inv hr
  have hown : (s.vaults vaultId).owner ≠ 0 := by
    refine (hinv vaultId).2.2.2.2.2 ?_
    rcases hterm with h | h <;> rw [h] <;> exact fun q => VaultStatus.noConfusion q
  have hnAT : ¬ ((s.vaults vaultId).status = VaultStatus.Active ∨
      (s.vaults vaultId).status = VaultStatus.Triggered) := by
    rcases hterm with h | h <;> rw [h] <;>
      exact fun q => q.elim (fun a => VaultStatus.noConfusion a)
        (fun a => VaultStatus.noConfusion a)
  have hnA : ¬ (s.vaults vaultId).status = VaultStatus.Active :=
    fun h => hnAT (Or.inl h)
  have hnT : ¬ (s.vaults vaultId).status = VaultStatus.Triggered :=
    fun h => hnAT (Or.inr h)
  refine ⟨?_, ?_, ?_, ?_, ?_, ?_, ?_, ?_, ?_⟩
  · intro caller now s' h
    exact hnAT (checkIn_ok _ _ _ _ _ h).2.2.1
  · intro caller now s' h
    exact hnA (triggerRecovery_ok _ _ _ _ _ h).2.1
  · intro caller now ret s' h
    exact hnT (claimInheritance_ok _ _ _ _ _ _ h).2.2.1
  · intro caller now s' h
    exact hnAT (cancelVault_ok _ _ _ _ _ h).2.2.1
  · intro caller now hc
    unfold checkIn
    rw [if_neg hown, if_neg (not_not.mpr hc), if_pos hnAT]
  · intro caller now
    unfold triggerRecovery
    rw [if_neg hown, if_pos hnA]
  · intro caller now hb
    unfold claimInheritance
    rw [if_neg hown, if_neg (not_not.mpr hb), if_pos hnT]
  · intro caller now hc
    unfold cancelVault
    rw [if_neg hown, if_neg (not_not.mpr hc), if_pos hnAT]
  · intro s' hstar
    exact starStep_preserves_terminal hinv hstar vaultId hterm

/-- Witness for C5 at the reachable cancelled state: all four mutating
operations are rejected, the role-matching callers get the state errors. -/
theorem c5_terminal_absorbing_witness :
    ((runState3.vaults 0).status = VaultStatus.Claimed ∨
     (runState3.vaults 0).status = VaultStatus.Cancelled) ∧
    (∀ caller now s', checkIn runState3 caller now 0 ≠ Except.ok s') ∧
    checkIn runState3 1 200000 0 = Except.error "Vault not active" ∧
    triggerRecovery runState3 7 200000 0 = Except.error "Vault not active" ∧
    claimInheritance runState3 2 999999 0 = Except.error "Vault not triggered" ∧
    cancelVault runState3 1 200000 0 = Except.error "Cannot cancel vault" :=
  have ht := c5_terminal_absorbing runState3 reachable_runState3 0 (Or.inr rfl)
  ⟨Or.inr rfl, ht.1, ht.2.2.2.2.1 1 200000 rfl, ht.2.2.2.2.2.1 7 200000,
   ht.2.2.2.2.2.2.1 2 999999 rfl, ht.2.2.2.2.2.2.2.1 1 200000 rfl⟩

/-- C6: `createVault` succeeds exactly when the beneficiary is non-zero and
differs from the caller, both strings are non-empty and both day counts are
positive; a rejected call reverts (so no record is created and no state
changes); a successful call allocates the fresh id `totalVaults` (ids are the
successive counter values, so strictly increasing and never reused), bumps
the counter, stores the record with `lastCheckIn = createdAt = now`,
`triggerTime = 0`, `status = Active`, `inactivityPeriod = inactivityDays *
86400` and `gracePeriod = graceDays * 86400`, and leaves every other vault
record unchanged. -/
theorem c6_createVault_spec (s : LedgerState) (caller now beneficiary : Nat)
    (ipfsCID encryptedTimelockKey : String) (inactivityDays graceDays : Nat) :
    ((∃ vaultId s', createVault s caller now beneficiary ipfsCID
        encryptedTimelockKey inactivityDays graceDays = Except.ok (vaultId, s')) ↔
      (beneficiary ≠ 0 ∧ beneficiary ≠ caller ∧ ipfsCID ≠ "" ∧
       encryptedTimelockKey ≠ "" ∧ 0 < inactivityDays ∧ 0 < graceDays)) ∧
    (∀ vaultId s', createVault s caller now beneficiary ipfsCID
        encryptedTimelockKey inactivityDays graceDays = Except.ok (vaultId, s') →
      vaultId = s.vaultCounter ∧ s'.vaultCounter = s.vaultCounter + 1 ∧
      s'.vaults vaultId =
        { owner := caller, beneficiary := beneficiary, ipfsCID := ipfsCID
        , encryptedTimelockKey := encryptedTimelockKey
        , inactivityPeriod := inactivityDays * 86400, lastCheckIn := now
        , gracePeriod := graceDays * 86400, triggerTime := 0
        , status := VaultStatus.Active, createdAt := now } ∧
      (∀ j, j ≠ vaultId → s'.vaults j = s.vaults j)) ∧
    (¬ (beneficiary ≠ 0 ∧ beneficiary ≠ caller ∧ ipfsCID ≠ "" ∧
        encryptedTimelockKey ≠ "" ∧ 0 < inactivityDays ∧ 0 < graceDays) →
      ∃ e, createVault s caller now beneficiary ipfsCID encryptedTimelockKey
        inactivityDays graceDays = Except.error e) := by
  refine ⟨⟨?_, ?_⟩, ?_, ?_⟩
  · rintro ⟨vaultId, s', h⟩
    obtain ⟨h1, h2, h3, h4, h5, h6, _, _⟩ := createVault_ok _ _ _ _ _ _ _ _ _ _ h
    exact ⟨h1, h2, h3, h4, Nat.pos_of_ne_zero h5, Nat.pos_of_ne_zero h6⟩
  · rintro ⟨h1, h2, h3, h4, h5, h6⟩
    exact ⟨_, _, createVault_succeeds s caller now beneficiary ipfsCID
      encryptedTimelockKey inactivityDays graceDays h1 h2 h3 h4
      (Nat.pos_iff_ne_zero.mp h5) (Nat.pos_iff_ne_zero.mp h6)⟩
  · intro vaultId s' h
    obtain ⟨_, _, _, _, _, _, hid, hstate⟩ := createVault_ok _ _ _ _ _ _ _ _ _ _ h
    subst hid
    subst hstate
    refine ⟨rfl, rfl, ?_, ?_⟩
    · dsimp only
      rw [if_pos rfl]
    · intro j hj
      dsimp only
      rw [if_neg hj]
  · intro hng
    cases h : createVault s caller now beneficiary ipfsCID encryptedTimelockKey
        inactivityDays graceDays with
    | error e => exact ⟨e, rfl⟩
    | ok p =>
      obtain ⟨h1, h2, h3, h4, h5, h6, _, _⟩ :=
        createVault_ok _ _ _ _ _ _ _ _ p.1 p.2 (by rw [h])
      exact absurd ⟨h1, h2, h3, h4, Nat.pos_of_ne_zero h5,
        Nat.pos_of_ne_zero h6⟩ hng

/-- Witness for C6: the concrete creation succeeds and writes the expected
record at id 0. -/
theorem c6_createVault_spec_witness :
    (∃ vaultId s', createVault initialState 1 1000 2 "cid" "share" 1 1
      = Except.ok (vaultId, s')) ∧
    runState1.vaultCounter = 1 ∧
    runState1.vaults 0 =
      { owner := 1, beneficiary := 2, ipfsCID := "cid"
      , encryptedTimelockKey := "share", inactivityPeriod := 86400
      , lastCheckIn := 1000, gracePeriod := 86400, triggerTime := 0
      , status := VaultStatus.Active, createdAt := 1000 } :=
  ⟨(c6_createVault_spec initialState 1 1000 2 "cid" "share" 1 1).1.mpr
     ⟨by decide, by decide, by decide, by decide, by decide, by decide⟩,
   ((c6_createVault_spec initialState 1 1000 2 "cid" "share" 1 1).2.1
     0 runState1 rfl).2.1,
   by
     have h := ((c6_createVault_spec initialState 1 1000 2 "cid" "share" 1 1).2.1
       0 runState1 rfl).2.2.1
     simpa using h⟩

theorem combineShares_two (env : CryptoEnv) (a b : String) :
    combineShares env [a, b] = Except.ok (env.secretsCombine [a, b]) := by
  unfold combineShares
  rw [if_neg (by simp)]

/-- C4: round-trip recovery. Under the spec's contracts for the external
primitives — authenticated decryption inverts encryption under the same key,
the content store returns what was stored, and combining the first two of the
three shares of a split reconstructs the split secret — running the SDK
creation path and then the SDK recovery path on the beneficiary share and the
held (timelock) share yields exactly the original secret. -/
theorem c4_round_trip (env : CryptoEnv) (secret encryptionKey beneficiary : String)
    (hcipher : ∀ data key,
      env.decryptAES (env.encryptAES data key) key = Except.ok data)
    (hstore : ∀ data, env.ipfsRetrieve (env.ipfsUpload data) = Except.ok data)
    (hcombine : ∀ sec,
      env.secretsCombine [(env.secretsShare sec 3 2).getD 0 "",
        (env.secretsShare sec 3 2).getD 1 ""] = sec) :
    sdkClaimInheritance env
      (sdkCreateVault env secret encryptionKey beneficiary).ipfsCID
      (sdkCreateVault env secret encryptionKey beneficiary).encryptedTimelockKey
      (sdkCreateVault env secret encryptionKey beneficiary).shares.beneficiaryShare
      = Except.ok secret := by
  unfold sdkClaimInheritance sdkCreateVault encryptShareForRecipient splitSecret
  rw [combineShares_two]
  dsimp only
  rw [hcombine encryptionKey, hstore]
  exact hcipher secret encryptionKey

/-- Witness for C4 on the concrete secret string. -/
theorem c4_round_trip_witness :
    (∀ data key,
      idCryptoEnv.decryptAES (idCryptoEnv.encryptAES data key) key
        = Except.ok data) ∧
    (∀ data, idCryptoEnv.ipfsRetrieve (idCryptoEnv.ipfsUpload data)
        = Except.ok data) ∧
    (∀ sec, idCryptoEnv.secretsCombine
        [(idCryptoEnv.secretsShare sec 3 2).getD 0 "",
         (idCryptoEnv.secretsShare sec 3 2).getD 1 ""] = sec) ∧
    sdkClaimInheritance idCryptoEnv
      (sdkCreateVault idCryptoEnv "my seed phrase" "key0" "bob").ipfsCID
      (sdkCreateVault idCryptoEnv "my seed phrase" "key0" "bob").encryptedTimelockKey
      (sdkCreateVault idCryptoEnv "my seed phrase" "key0" "bob").shares.beneficiaryShare
      = Except.ok "my seed phrase" :=
  ⟨fun _ _ => rfl, fun _ => rfl, fun _ => rfl,
   c4_round_trip idCryptoEnv "my seed phrase" "key0" "bob"
     (fun _ _ => rfl) (fun _ => rfl) (fun _ => rfl)⟩

/-- C8: `encryptShareForRecipient` returns the share completely unmodified
for every share and recipient key, `decryptShareFromRecipient` likewise
returns its input unchanged, and consequently the `encryptedTimelockKey` the
SDK records in the ledger at creation is exactly the raw timelock share
produced by the split. -/
theorem c8_share_passthrough :
    (∀ share publicKey, encryptShareForRecipient share publicKey = share) ∧
    (∀ encryptedShare privateKey,
      decryptShareFromRecipient encryptedShare privateKey = encryptedShare) ∧
    (∀ (env : CryptoEnv) (secret encryptionKey beneficiary : String),
      (sdkCreateVault env secret encryptionKey beneficiary).encryptedTimelockKey
        = (sdkCreateVault env secret encryptionKey beneficiary).shares.timelockShare) :=
  ⟨fun _ _ => rfl, fun _ _ => rfl, fun _ _ _ _ => rfl⟩

/-- C9: for every list of fewer than 2 shares — in particular a single share
— `combineShares` fails with the insufficient-shares error and never returns
a reconstructed secret. -/
theorem c9_combineShares_insufficient (env : CryptoEnv) (shares : List String)
    (h : shares.length < 2) :
    combineShares env shares = Except.error "At least 2 shares are required" ∧
    ∀ secret, combineShares env shares ≠ Except.ok secret := by
  unfold combineShares
  rw [if_pos h]
  exact ⟨rfl, fun secret hc => Except.noConfusion hc⟩

/-- Witness for C9 on a single concrete share. -/
theorem c9_combineShares_insufficient_witness :
    (["a"] : List String).length < 2 ∧
    combineShares idCryptoEnv ["a"]
      = Except.error "At least 2 shares are required" :=
  ⟨by decide, (c9_combineShares_insufficient idCryptoEnv ["a"] (by decide)).1⟩
